import Mathlib

set_option linter.all false

/-- A decoded debug info entry as produced by the external DIE decoder:
`off` is the stream offset at which it was constructed, `size` the number of
bytes it reports having consumed (`die.size` in the source). -/
structure DIE where
  off : Int
  size : Int
deriving DecidableEq

/-- Errors raised by the embedded code.  `keyError` is Python's `KeyError`
from `self.header[name]` (the spec's *MissingField*), `indexError` is
Python's `IndexError` from `self._dielist[index]` (the spec's
*IndexOutOfRange*), `decodeError` stands for an exception raised by the
external DIE decoder. -/
inductive Err where
  | keyError (name : String)
  | indexError
  | decodeError
deriving DecidableEq

/-- An abbreviation table reference, kept abstract: only its identity (the
offset it was resolved from) matters to this core. -/
structure AbbrevTable where
  off : Int
deriving DecidableEq

/-- The owning DWARFInfo context, reduced to the two capabilities the
compile unit uses: constructing a DIE from a stream offset
(`DIE(cu=self, stream=self.dwarfinfo.stream, offset=...)`) and resolving an
abbreviation-table offset (`self.dwarfinfo.get_abbrev_table(...)`). -/
structure DwarfInfo where
  decodeDIE : Int → Except Err DIE
  get_abbrev_table : Int → AbbrevTable

/-- The DWARFStructs instance, reduced to the one method the compile unit
calls. -/
structure Structs where
  initial_length_field_size : Int

/-- The compile-unit state: the five constructor-supplied fields plus the
two lazily populated caches (`self._abbrev_table`, `self._dielist`). -/
structure CompileUnit where
  header : List (String × Int)
  dwarfinfo : DwarfInfo
  structs : Structs
  cu_offset : Int
  cu_die_offset : Int
  abbrev_cache : Option AbbrevTable
  dielist : List DIE

/-- Python dict lookup: `h[name]`, raising `KeyError` when absent. -/
def dict_get (h : List (String × Int)) (name : String) : Except Err Int :=
  match h.lookup name with
  | some v => Except.ok v
  | none => Except.error (Err.keyError name)

/-- The source's `__getitem__`: dict-like access to header entries,
`return self.header[name]`. -/
def getItem (cu : CompileUnit) (name : String) : Except Err Int :=
  dict_get cu.header name

/-- The source's `get_abbrev_table`: resolve and cache on first call, return
the cache afterwards.  The returned `Bool` records whether the context's
resolver was invoked by this call (instrumentation for the memoization
claims; it does not alter the data flow). -/
def get_abbrev_table (cu : CompileUnit) :
    Except Err (CompileUnit × AbbrevTable × Bool) :=
  match cu.abbrev_cache with
  | none =>
    match getItem cu "debug_abbrev_offset" with
    | Except.error e => Except.error e
    | Except.ok off =>
      let t := cu.dwarfinfo.get_abbrev_table off
      Except.ok ({ cu with abbrev_cache := some t }, t, true)
  | some t => Except.ok (cu, t, false)

/-- The boundary computation at the top of `_parse_DIEs`:
`cu_boundary = self.cu_offset + self['unit_length']
             + self.structs.initial_length_field_size()`.
The header lookup can raise `KeyError`. -/
def cu_boundary (cu : CompileUnit) : Except Err Int :=
  (getItem cu "unit_length").map
    (fun ul => cu.cu_offset + ul + cu.structs.initial_length_field_size)

/-- Outcome of one run of the decode loop: normal completion, an exception
raised mid-walk (carrying the state at raise time, since the appends to
`self._dielist` have already happened), or exhaustion of the fuel bound
(the embedding's witness of non-termination). -/
inductive ParseResult where
  | done (cu : CompileUnit)
  | err (cu : CompileUnit) (e : Err)
  | diverge

/-- The `while die_offset < cu_boundary` loop of `_parse_DIEs`: decode a DIE
at the cursor, append it to `self._dielist`, advance the cursor by the
reported size.  No size validation of any kind is performed by the source. -/
def parseLoop (boundary : Int) : Nat → Int → CompileUnit → ParseResult
  | 0, off, cu => if off < boundary then ParseResult.diverge else ParseResult.done cu
  | Nat.succ fuel, off, cu =>
    if off < boundary then
      match cu.dwarfinfo.decodeDIE off with
      | Except.error e => ParseResult.err cu e
      | Except.ok die =>
        parseLoop boundary fuel (off + die.size)
          { cu with dielist := cu.dielist ++ [die] }
    else ParseResult.done cu

/-- The source's `_parse_DIEs`: compute the boundary, then walk from
`self.cu_die_offset`. -/
def parse_DIEs (fuel : Nat) (cu : CompileUnit) : ParseResult :=
  match cu_boundary cu with
  | Except.error e => ParseResult.err cu e
  | Except.ok b => parseLoop b fuel cu.cu_die_offset cu

/-- Python list indexing `l[i]` for `int` indices: indices in `[0, len)`
address from the front, indices in `[-len, 0)` address from the back, and
anything else raises `IndexError`. -/
def pyIndex (l : List DIE) (i : Int) : Except Err DIE :=
  let j : Int := if i < 0 then i + l.length else i
  if j < 0 then Except.error Err.indexError
  else
    match l.get? j.toNat with
    | some d => Except.ok d
    | none => Except.error Err.indexError

/-- Outcome of an indexed access: on `ok` and `err` the final compile-unit
state is carried, together with a flag recording whether this access entered
`_parse_DIEs` (instrumentation for the memoization claims). -/
inductive GetResult where
  | ok (cu : CompileUnit) (die : DIE) (parsed : Bool)
  | err (cu : CompileUnit) (e : Err) (parsed : Bool)
  | diverge

/-- The source's `_get_DIE`: materialize if and only if `self._dielist` is
empty, then index the list with Python semantics. -/
def get_DIE (fuel : Nat) (cu : CompileUnit) (index : Int) : GetResult :=
  if cu.dielist.length = 0 then
    match parse_DIEs fuel cu with
    | ParseResult.done cu' =>
      match pyIndex cu'.dielist index with
      | Except.ok die => GetResult.ok cu' die true
      | Except.error e => GetResult.err cu' e true
    | ParseResult.err cu' e => GetResult.err cu' e true
    | ParseResult.diverge => GetResult.diverge
  else
    match pyIndex cu.dielist index with
    | Except.ok die => GetResult.ok cu die false
    | Except.error e => GetResult.err cu e false

/-- The source's `get_top_DIE`: `return self._get_DIE(0)`. -/
def get_top_DIE (fuel : Nat) (cu : CompileUnit) : GetResult :=
  get_DIE fuel cu 0

/-- Record list of a successful walk, `none` on error or divergence. -/
def ParseResult.diesOf : ParseResult → Option (List DIE)
  | ParseResult.done cu => some cu.dielist
  | _ => none

/-- Record list left behind by a failing walk, `none` otherwise. -/
def ParseResult.errDies : ParseResult → Option (List DIE)
  | ParseResult.err cu _ => some cu.dielist
  | _ => none

/-- Final compile-unit state of an indexed access, when it terminated. -/
def GetResult.cuOf : GetResult → Option CompileUnit
  | GetResult.ok cu _ _ => some cu
  | GetResult.err cu _ _ => some cu
  | GetResult.diverge => none

/-- Whether an indexed access entered `_parse_DIEs`, when it terminated. -/
def GetResult.parsedFlag : GetResult → Option Bool
  | GetResult.ok _ _ p => some p
  | GetResult.err _ _ p => some p
  | GetResult.diverge => none

/-- Two back-to-back indexed accesses at the same index, reporting whether
each of them entered the decode walk. -/
def twoAccessFlags (fuel : Nat) (cu : CompileUnit) (i : Int) :
    Option (Bool × Bool) :=
  match get_DIE fuel cu i with
  | GetResult.ok cu' _ p =>
    match get_DIE fuel cu' i with
    | GetResult.ok _ _ q => some (p, q)
    | GetResult.err _ _ q => some (p, q)
    | GetResult.diverge => none
  | GetResult.err cu' _ p =>
    match get_DIE fuel cu' i with
    | GetResult.ok _ _ q => some (p, q)
    | GetResult.err _ _ q => some (p, q)
    | GetResult.diverge => none
  | GetResult.diverge => none

/-- Every compile-unit field except the record-list cache is unchanged. -/
def sameFrame (cu cu' : CompileUnit) : Prop :=
  cu'.header = cu.header ∧ cu'.dwarfinfo = cu.dwarfinfo ∧
  cu'.structs = cu.structs ∧ cu'.cu_offset = cu.cu_offset ∧
  cu'.cu_die_offset = cu.cu_die_offset ∧ cu'.abbrev_cache = cu.abbrev_cache

/-- Decoder of the spec's concrete scenario: records of sizes 5, 20, 8 at
offsets 11, 16, 36. -/
def exDecoder : Int → Except Err DIE := fun off =>
  if off = 11 then Except.ok ⟨11, 5⟩
  else if off = 16 then Except.ok ⟨16, 20⟩
  else if off = 36 then Except.ok ⟨36, 8⟩
  else Except.error Err.decodeError

/-- A resolver that tags the table with the offset it was asked for. -/
def exResolver : Int → AbbrevTable := fun off => ⟨off⟩

/-- The compile unit of the spec's concrete scenario: `unit_length = 40`,
length-prefix width 4, `cu_offset = 0`, `cu_die_offset = 11`. -/
def exCU : CompileUnit :=
  { header := [("unit_length", 40), ("debug_abbrev_offset", 0)]
    dwarfinfo := ⟨exDecoder, exResolver⟩
    structs := ⟨4⟩
    cu_offset := 0
    cu_die_offset := 11
    abbrev_cache := none
    dielist := [] }

/-- The concrete scenario's compile unit with its record list materialized. -/
def exCUM : CompileUnit :=
  { exCU with dielist := [⟨11, 5⟩, ⟨16, 20⟩, ⟨36, 8⟩] }

/-- Decoder whose single record at offset 11 reports size 100, overshooting
the boundary 44. -/
def overshootDecoder : Int → Except Err DIE := fun off =>
  if off = 11 then Except.ok ⟨11, 100⟩ else Except.error Err.decodeError

/-- The concrete scenario with the overshooting decoder. -/
def overshootCU : CompileUnit :=
  { exCU with dwarfinfo := ⟨overshootDecoder, exResolver⟩ }

/-- Decoder of the spec's corruption scenario: the second record (offset 16)
reports size 0. -/
def zeroDecoder : Int → Except Err DIE := fun off =>
  if off = 11 then Except.ok ⟨11, 5⟩
  else if off = 16 then Except.ok ⟨16, 0⟩
  else Except.error Err.decodeError

/-- The concrete scenario with the zero-size decoder. -/
def zeroCU : CompileUnit :=
  { exCU with dwarfinfo := ⟨zeroDecoder, exResolver⟩ }

/-- Decoder that decodes the first record and raises on the second. -/
def failDecoder : Int → Except Err DIE := fun off =>
  if off = 11 then Except.ok ⟨11, 5⟩ else Except.error Err.decodeError

/-- The concrete scenario with the decoder that fails on the second record. -/
def failCU : CompileUnit :=
  { exCU with dwarfinfo := ⟨failDecoder, exResolver⟩ }

/-- When the cursor has reached the boundary the loop stops at once, for any
fuel, leaving the state untouched. -/
lemma parseLoop_done_of_le (b off : Int) (cu : CompileUnit) (h : b ≤ off) :
    ∀ f, parseLoop b f off cu = ParseResult.done cu := by
  intro f
  cases f with
  | zero => simp [parseLoop, not_lt.mpr h]
  | succ f => simp [parseLoop, not_lt.mpr h]

/-- If the decoder reports size 0 at a cursor strictly inside the unit, the
loop revisits the same cursor forever: it exhausts any fuel bound. -/
lemma parseLoop_diverge_zero (b off : Int) (die : DIE)
    (hlt : off < b) (hz : die.size = 0) :
    ∀ (f : Nat) (cu : CompileUnit),
      cu.dwarfinfo.decodeDIE off = Except.ok die →
      parseLoop b f off cu = ParseResult.diverge := by
  intro f
  induction f with
  | zero => intro cu _; simp [parseLoop, hlt]
  | succ f ih =>
    intro cu h
    simp only [parseLoop, if_pos hlt, h, hz, add_zero]
    exact ih _ h

/-- A run of the loop that ends (normally or in an error) only ever appends
to the record list and leaves every other field unchanged. -/
lemma parseLoop_state (b : Int) :
    ∀ (fuel : Nat) (off : Int) (cu cu' : CompileUnit),
      (parseLoop b fuel off cu = ParseResult.done cu' ∨
        ∃ e, parseLoop b fuel off cu = ParseResult.err cu' e) →
      (∃ t, cu'.dielist = cu.dielist ++ t) ∧ sameFrame cu cu' := by
  intro fuel
  induction fuel with
  | zero =>
    intro off cu cu' h
    simp only [parseLoop] at h
    by_cases hb : off < b
    · simp [hb] at h
    · simp only [if_neg hb] at h
      rcases h with h | ⟨e, h⟩
      · cases h
        exact ⟨⟨[], by simp⟩, rfl, rfl, rfl, rfl, rfl, rfl⟩
      · cases h
  | succ fuel ih =>
    intro off cu cu' h
    simp only [parseLoop] at h
    by_cases hb : off < b
    · simp only [if_pos hb] at h
      cases hdec : cu.dwarfinfo.decodeDIE off with
      | error e =>
        simp only [hdec] at h
        rcases h with h | ⟨e', h⟩
        · cases h
        · cases h
          exact ⟨⟨[], by simp⟩, rfl, rfl, rfl, rfl, rfl, rfl⟩
      | ok die =>
        simp only [hdec] at h
        have := ih (off + die.size)
          { cu with dielist := cu.dielist ++ [die] } cu' h
        rcases this with ⟨⟨t, ht⟩, hf⟩
        refine ⟨⟨die :: t, by simpa using ht⟩, ?_⟩
        exact hf
    · simp only [if_neg hb] at h
      rcases h with h | ⟨e, h⟩
      · cases h
        exact ⟨⟨[], by simp⟩, rfl, rfl, rfl, rfl, rfl, rfl⟩
      · cases h

/-- Lifting of `parseLoop_state` through the boundary computation of
`_parse_DIEs`. -/
lemma parse_DIEs_state (fuel : Nat) (cu cu' : CompileUnit)
    (h : parse_DIEs fuel cu = ParseResult.done cu' ∨
      ∃ e, parse_DIEs fuel cu = ParseResult.err cu' e) :
    (∃ t, cu'.dielist = cu.dielist ++ t) ∧ sameFrame cu cu' := by
  unfold parse_DIEs at h
  cases hb : cu_boundary cu with
  | error e =>
    simp only [hb] at h
    rcases h with h | ⟨e', h⟩
    · cases h
    · cases h
      exact ⟨⟨[], by simp⟩, rfl, rfl, rfl, rfl, rfl, rfl⟩
  | ok b =>
    simp only [hb] at h
    exact parseLoop_state b fuel cu.cu_die_offset cu cu' h

/-- An indexed access enters the decode walk exactly when the cached record
list is empty. -/
lemma getDIE_parse_branch (fuel : Nat) (cu : CompileUnit) (i : Int) :
    (cu.dielist = [] → (get_DIE fuel cu i).parsedFlag ≠ some false) ∧
    (cu.dielist ≠ [] → (get_DIE fuel cu i).parsedFlag = some false) := by
  constructor
  · intro he
    have hlen : cu.dielist.length = 0 := by simp [he]
    unfold get_DIE
    rw [if_pos hlen]
    cases hp : parse_DIEs fuel cu with
    | done cu' =>
      cases hq : pyIndex cu'.dielist i <;> simp [hq, GetResult.parsedFlag]
    | err cu' e => simp [GetResult.parsedFlag]
    | diverge => simp [GetResult.parsedFlag]
  · intro hne
    have hlen : ¬ cu.dielist.length = 0 := by
      simpa [List.length_eq_zero] using hne
    unfold get_DIE
    rw [if_neg hlen]
    cases hq : pyIndex cu.dielist i <;> simp [hq, GetResult.parsedFlag]

/-- C1: in the concrete scenario the boundary computes to 0 + 40 + 4 = 44 and
materialization terminates without error with exactly the three records
decoded at offsets 11, 16, 36 in that order. -/
theorem C1_concrete_scenario :
    cu_boundary exCU = Except.ok 44 ∧
    (parse_DIEs 100 exCU).diesOf =
      some [⟨11, 5⟩, ⟨16, 20⟩, ⟨36, 8⟩] :=
  ⟨rfl, rfl⟩

/-- C2 counterexample: the record at cursor 11 reports size 100, so
cursor + size = 111 exceeds the boundary 44, yet materialization completes
without any error and the record is silently appended — there is no
TruncatedRecord check in the code. -/
theorem C2_counterexample :
    cu_boundary overshootCU = Except.ok 44 ∧
    (44 : Int) < 11 + 100 ∧
    (parse_DIEs 100 overshootCU).diesOf = some [⟨11, 100⟩] :=
  ⟨rfl, by norm_num, rfl⟩

/-- C2 amended: the walk validates nothing about the reported size. A record
whose size carries the cursor to or past the boundary is appended and the
walk completes without error; a record reporting size 0 makes the walk
revisit the same cursor forever (it exhausts every fuel bound), with no
TruncatedRecord error in either case. -/
theorem C2_no_size_validation (b : Int) (fuel : Nat) (off : Int)
    (cu : CompileUnit) (die : DIE)
    (hlt : off < b) (hdec : cu.dwarfinfo.decodeDIE off = Except.ok die) :
    (b ≤ off + die.size →
      (parseLoop b (fuel + 1) off cu).diesOf = some (cu.dielist ++ [die])) ∧
    (die.size = 0 → ∀ f, parseLoop b f off cu = ParseResult.diverge) := by
  constructor
  · intro hover
    simp only [parseLoop, if_pos hlt, hdec]
    rw [parseLoop_done_of_le b (off + die.size) _ hover fuel]
    rfl
  · intro hz f
    exact parseLoop_diverge_zero b off die hlt hz f cu hdec

/-- C2 witness: the amended theorem applied to the overshooting decoder at
cursor 11 and to the zero-size decoder at cursor 16. -/
theorem C2_no_size_validation_witness :
    ((11 : Int) < 44 ∧
      overshootCU.dwarfinfo.decodeDIE 11 = Except.ok ⟨11, 100⟩ ∧
      (parseLoop 44 5 11 overshootCU).diesOf =
        some (overshootCU.dielist ++ [⟨11, 100⟩])) ∧
    ((16 : Int) < 44 ∧
      zeroCU.dwarfinfo.decodeDIE 16 = Except.ok ⟨16, 0⟩ ∧
      parseLoop 44 9 16 zeroCU = ParseResult.diverge) := by
  refine ⟨⟨by norm_num, rfl, ?_⟩, ⟨by norm_num, rfl, ?_⟩⟩
  · exact (C2_no_size_validation 44 4 11 overshootCU ⟨11, 100⟩
      (by norm_num) rfl).1 (by norm_num)
  · exact (C2_no_size_validation 44 0 16 zeroCU ⟨16, 0⟩
      (by norm_num) rfl).2 rfl 9

/-- C3 counterexample: the decoder succeeds on the first record and raises on
the second; the failed materialization leaves the cached list holding the
already-appended record (not the unpopulated state), and the next indexed
access does not re-attempt materialization — it serves the partial list
(second access flag is `false`). -/
theorem C3_counterexample :
    (parse_DIEs 100 failCU).errDies = some [⟨11, 5⟩] ∧
    twoAccessFlags 100 failCU 0 = some (true, false) :=
  ⟨rfl, rfl⟩

/-- C3 amended: a failed materialization attempt keeps every record appended
before the failure in the cached list. Only when the failure struck before
any append (list still empty) does the next access re-attempt the walk; when
at least one record was appended, every subsequent access reuses the partial
list without re-attempting. -/
theorem C3_failed_walk_state (fuel : Nat) (cu cu' : CompileUnit) (e : Err)
    (hfail : parse_DIEs fuel cu = ParseResult.err cu' e) :
    (∃ t, cu'.dielist = cu.dielist ++ t) ∧
    (cu'.dielist = [] →
      ∀ fuel2 i, (get_DIE fuel2 cu' i).parsedFlag ≠ some false) ∧
    (cu'.dielist ≠ [] →
      ∀ fuel2 i, (get_DIE fuel2 cu' i).parsedFlag = some false) := by
  refine ⟨(parse_DIEs_state fuel cu cu' (Or.inr ⟨e, hfail⟩)).1, ?_, ?_⟩
  · intro he fuel2 i
    exact (getDIE_parse_branch fuel2 cu' i).1 he
  · intro hne fuel2 i
    exact (getDIE_parse_branch fuel2 cu' i).2 hne

/-- C3 witness: the amended theorem applied to the failing decoder of the
concrete scenario. -/
theorem C3_failed_walk_state_witness :
    parse_DIEs 100 failCU =
      ParseResult.err { failCU with dielist := [⟨11, 5⟩] } Err.decodeError ∧
    (∃ t, ({ failCU with dielist := [⟨11, 5⟩] } : CompileUnit).dielist =
      failCU.dielist ++ t) := by
  refine ⟨rfl, ?_⟩
  exact (C3_failed_walk_state 100 failCU
    { failCU with dielist := [⟨11, 5⟩] } Err.decodeError rfl).1

/-- A compile unit whose declared extent ends before its first record:
boundary 0 + 3 + 4 = 7 while the top record sits at offset 11. -/
def emptyCU : CompileUnit :=
  { exCU with header := [("unit_length", 3), ("debug_abbrev_offset", 0)] }

/-- Python indexing raises `IndexError` exactly outside `[-len, len)`. -/
lemma pyIndex_err (l : List DIE) (i : Int)
    (h : (l.length : Int) ≤ i ∨ i < -(l.length : Int)) :
    pyIndex l i = Except.error Err.indexError := by
  simp only [pyIndex]
  by_cases hi : i < 0
  · rcases h with h | h
    · exfalso; omega
    · rw [if_pos hi, if_pos (by omega : i + (l.length : Int) < 0)]
  · rcases h with h | h
    · rw [if_neg hi, if_neg (by omega : ¬ (i : Int) < 0)]
      have hn : l.get? i.toNat = none := by
        rw [List.get?_eq_none]
        omega
      rw [hn]
    · exfalso; omega

/-- Python indexing succeeds on every index in `[-len, len)`. -/
lemma pyIndex_ok (l : List DIE) (i : Int)
    (h1 : -(l.length : Int) ≤ i) (h2 : i < (l.length : Int)) :
    ∃ d, pyIndex l i = Except.ok d := by
  simp only [pyIndex]
  by_cases hi : i < 0
  · rw [if_pos hi, if_neg (by omega : ¬ i + (l.length : Int) < 0)]
    have hj : (i + (l.length : Int)).toNat < l.length := by omega
    rw [List.get?_eq_get hj]
    exact ⟨_, rfl⟩
  · rw [if_neg hi, if_neg (by omega : ¬ (i : Int) < 0)]
    have hj : i.toNat < l.length := by omega
    rw [List.get?_eq_get hj]
    exact ⟨_, rfl⟩

/-- C4 counterexample: for a unit whose walk succeeds with an empty record
list (boundary 7 below top offset 11), two successive indexed accesses both
enter the decode walk — the first successful computation does not stop the
second access from recomputing, because the empty list doubles as the
"not yet parsed" sentinel. -/
theorem C4_counterexample :
    parse_DIEs 100 emptyCU = ParseResult.done emptyCU ∧
    twoAccessFlags 100 emptyCU 0 = some (true, true) :=
  ⟨rfl, rfl⟩

/-- C4 amended: the schema cache is genuinely computed at most once — two
calls return the identical reference and invoke the context resolver exactly
once — and the record list is recomputed by a later access only when the
cached list is empty: after any terminating access that leaves a non-empty
list, no subsequent access enters the decode walk. -/
theorem C4_memoization (cu : CompileUnit) (off : Int)
    (h1 : cu.abbrev_cache = none)
    (h2 : getItem cu "debug_abbrev_offset" = Except.ok off) :
    (∃ cu1 t, get_abbrev_table cu = Except.ok (cu1, t, true) ∧
      get_abbrev_table cu1 = Except.ok (cu1, t, false)) ∧
    (∀ fuel i cu', (get_DIE fuel cu i).cuOf = some cu' → cu'.dielist ≠ [] →
      ∀ fuel2 j, (get_DIE fuel2 cu' j).parsedFlag = some false) := by
  constructor
  · refine ⟨{ cu with abbrev_cache := some (cu.dwarfinfo.get_abbrev_table off) },
      cu.dwarfinfo.get_abbrev_table off, ?_, ?_⟩
    · unfold get_abbrev_table
      rw [h1]
      simp only [h2]
    · rfl
  · intro fuel i cu' _ hne fuel2 j
    exact (getDIE_parse_branch fuel2 cu' j).2 hne

/-- C4 witness: the amended theorem applied to the concrete scenario's unit,
whose schema cache starts empty and whose header holds
`debug_abbrev_offset = 0`. -/
theorem C4_memoization_witness :
    exCU.abbrev_cache = none ∧
    getItem exCU "debug_abbrev_offset" = Except.ok 0 ∧
    (∃ cu1 t, get_abbrev_table exCU = Except.ok (cu1, t, true) ∧
      get_abbrev_table cu1 = Except.ok (cu1, t, false)) :=
  ⟨rfl, rfl, (C4_memoization exCU 0 rfl rfl).1⟩

/-- C7 counterexample: with boundary 7 ≤ top offset 11, materialization
completes without any error and with an empty record list — no CorruptUnit
check exists in the code. -/
theorem C7_counterexample :
    cu_boundary emptyCU = Except.ok 7 ∧
    (7 : Int) ≤ emptyCU.cu_die_offset ∧
    parse_DIEs 100 emptyCU = ParseResult.done emptyCU ∧
    emptyCU.dielist = [] :=
  ⟨rfl, by decide, rfl, rfl⟩

/-- C7 amended: when the computed boundary is at or below the top record
offset, materialization completes without error, leaving the compile unit
(and in particular its empty record list) unchanged; no CorruptUnit error is
raised. -/
theorem C7_nonpositive_extent (fuel : Nat) (cu : CompileUnit) (b : Int)
    (hb : cu_boundary cu = Except.ok b) (hle : b ≤ cu.cu_die_offset) :
    parse_DIEs fuel cu = ParseResult.done cu := by
  unfold parse_DIEs
  simp only [hb]
  exact parseLoop_done_of_le b cu.cu_die_offset cu hle fuel

/-- C7 witness: the amended theorem applied to the truncated-extent unit. -/
theorem C7_nonpositive_extent_witness :
    cu_boundary emptyCU = Except.ok 7 ∧ (7 : Int) ≤ emptyCU.cu_die_offset ∧
    parse_DIEs 5 emptyCU = ParseResult.done emptyCU :=
  ⟨rfl, by decide, C7_nonpositive_extent 5 emptyCU 7 rfl (by decide)⟩

/-- C8 counterexample: on the materialized three-record unit, the index -1
lies outside `[0, 3)` yet the access succeeds, returning the last record —
Python's negative indexing applies to `self._dielist[index]`. -/
theorem C8_counterexample :
    get_DIE 100 exCUM (-1) = GetResult.ok exCUM ⟨36, 8⟩ false ∧
    ¬ (0 ≤ (-1 : Int)) :=
  ⟨rfl, by decide⟩

/-- C8 amended: on a materialized non-empty record list of length L, an
access fails with IndexOutOfRange exactly for indices i with i ≥ L or
i < -L; indices in `[-L, 0)` succeed (addressing from the end), and index 0
never fails. -/
theorem C8_index_bounds (fuel : Nat) (cu : CompileUnit)
    (hne : cu.dielist ≠ []) :
    (∀ i : Int, ((cu.dielist.length : Int) ≤ i ∨ i < -(cu.dielist.length : Int)) →
      get_DIE fuel cu i = GetResult.err cu Err.indexError false) ∧
    (∀ i : Int, -(cu.dielist.length : Int) ≤ i → i < 0 →
      ∃ d, get_DIE fuel cu i = GetResult.ok cu d false) ∧
    (∃ d, get_DIE fuel cu 0 = GetResult.ok cu d false) := by
  have hlen : ¬ cu.dielist.length = 0 := by
    simpa [List.length_eq_zero] using hne
  refine ⟨?_, ?_, ?_⟩
  · intro i hi
    unfold get_DIE
    rw [if_neg hlen, pyIndex_err cu.dielist i hi]
  · intro i h1 h2
    obtain ⟨d, hd⟩ := pyIndex_ok cu.dielist i h1 (by omega)
    refine ⟨d, ?_⟩
    unfold get_DIE
    rw [if_neg hlen, hd]
  · obtain ⟨d, hd⟩ := pyIndex_ok cu.dielist 0 (by omega) (by omega)
    refine ⟨d, ?_⟩
    unfold get_DIE
    rw [if_neg hlen, hd]

/-- C8 witness: the amended theorem applied to the materialized three-record
unit at the out-of-range index 3 and at index 0. -/
theorem C8_index_bounds_witness :
    exCUM.dielist ≠ [] ∧
    get_DIE 100 exCUM 3 = GetResult.err exCUM Err.indexError false ∧
    (∃ d, get_DIE 100 exCUM 0 = GetResult.ok exCUM d false) := by
  have h := C8_index_bounds 100 exCUM (by simp [exCUM])
  exact ⟨by simp [exCUM], h.1 3 (by left; simp [exCUM]), h.2.2⟩

/-- C9: header field lookup returns the stored value for a present name and
raises KeyError (the spec's MissingField) for an absent one; there is no
default-value path. -/
theorem C9_header_lookup (cu : CompileUnit) (name : String) :
    (∀ v, cu.header.lookup name = some v → getItem cu name = Except.ok v) ∧
    (cu.header.lookup name = none →
      getItem cu name = Except.error (Err.keyError name)) := by
  constructor
  · intro v hv
    simp [getItem, dict_get, hv]
  · intro h
    simp [getItem, dict_get, h]

/-- C9 witness: the lookup theorem applied to the concrete header, on the
present key `unit_length` and on an absent key. -/
theorem C9_header_lookup_witness :
    exCU.header.lookup "unit_length" = some 40 ∧
    getItem exCU "unit_length" = Except.ok 40 ∧
    exCU.header.lookup "missing" = none ∧
    getItem exCU "missing" = Except.error (Err.keyError "missing") :=
  ⟨rfl, (C9_header_lookup exCU "unit_length").1 40 rfl, rfl,
    (C9_header_lookup exCU "missing").2 rfl⟩

/-- C10: any terminating run of materialization — successful or failed —
changes only the record-list field: header, owning context, structs, both
offsets and the schema cache keep their prior values. -/
theorem C10_frame_condition (fuel : Nat) (cu : CompileUnit) :
    (∀ cu', parse_DIEs fuel cu = ParseResult.done cu' → sameFrame cu cu') ∧
    (∀ cu' e, parse_DIEs fuel cu = ParseResult.err cu' e → sameFrame cu cu') := by
  constructor
  · intro cu' h
    exact (parse_DIEs_state fuel cu cu' (Or.inl h)).2
  · intro cu' e h
    exact (parse_DIEs_state fuel cu cu' (Or.inr ⟨e, h⟩)).2

/-- C10 witness: the frame theorem applied to the concrete scenario's
successful walk. -/
theorem C10_frame_condition_witness :
    parse_DIEs 100 exCU = ParseResult.done exCUM ∧ sameFrame exCU exCUM :=
  ⟨rfl, (C10_frame_condition 100 exCU).1 exCUM rfl⟩

/-- With a decoder whose every successful decode reports a strictly positive
size, any fuel at least the extent `boundary - cursor` suffices: the loop
never exhausts it. -/
lemma parseLoop_no_diverge (b : Int) :
    ∀ (fuel : Nat) (off : Int) (cu : CompileUnit),
      (∀ o die, cu.dwarfinfo.decodeDIE o = Except.ok die → 1 ≤ die.size) →
      (b - off).toNat ≤ fuel →
      parseLoop b fuel off cu ≠ ParseResult.diverge := by
  intro fuel
  induction fuel with
  | zero =>
    intro off cu _ hfuel
    have hnb : ¬ off < b := by omega
    simp [parseLoop, hnb]
  | succ fuel ih =>
    intro off cu hpos hfuel
    by_cases hb2 : off < b
    · simp only [parseLoop, if_pos hb2]
      cases hdec : cu.dwarfinfo.decodeDIE off with
      | error e => simp
      | ok die =>
        have hs := hpos off die hdec
        exact ih (off + die.size) { cu with dielist := cu.dielist ++ [die] }
          (fun o d hd => hpos o d hd) (by omega)
    · simp [parseLoop, hb2]

/-- C6: for a decoder meeting its contract (each successful decode reports a
strictly positive size not exceeding the remaining unit extent), a walk given
fuel covering the unit extent terminates — it runs to completion or to the
first error, never exhausting the fuel. -/
theorem C6_termination (cu : CompileUnit) (b : Int) (fuel : Nat)
    (hb : cu_boundary cu = Except.ok b)
    (hcontract : ∀ o die, cu.dwarfinfo.decodeDIE o = Except.ok die →
      1 ≤ die.size ∧ o + die.size ≤ b)
    (hfuel : (b - cu.cu_die_offset).toNat ≤ fuel) :
    parse_DIEs fuel cu ≠ ParseResult.diverge := by
  unfold parse_DIEs
  simp only [hb]
  exact parseLoop_no_diverge b fuel cu.cu_die_offset cu
    (fun o die h => (hcontract o die h).1) hfuel

/-- The scenario decoder meets the decoder contract against boundary 44: it
reports its decode offset and a positive size that stays within the unit. -/
lemma exDecoder_contract :
    ∀ o die, exCU.dwarfinfo.decodeDIE o = Except.ok die →
      die.off = o ∧ 1 ≤ die.size ∧ o + die.size ≤ 44 := by
  intro o die h
  have h' : exDecoder o = Except.ok die := h
  unfold exDecoder at h'
  by_cases h11 : o = 11
  · subst h11
    rw [if_pos rfl] at h'
    injection h' with hd
    subst hd
    exact ⟨rfl, by norm_num, by norm_num⟩
  · rw [if_neg h11] at h'
    by_cases h16 : o = 16
    · subst h16
      rw [if_pos rfl] at h'
      injection h' with hd
      subst hd
      exact ⟨rfl, by norm_num, by norm_num⟩
    · rw [if_neg h16] at h'
      by_cases h36 : o = 36
      · subst h36
        rw [if_pos rfl] at h'
        injection h' with hd
        subst hd
        exact ⟨rfl, by norm_num, by norm_num⟩
      · rw [if_neg h36] at h'
        cases h'

/-- C6 witness: the termination theorem applied to the concrete scenario. -/
theorem C6_termination_witness :
    cu_boundary exCU = Except.ok 44 ∧
    (44 - exCU.cu_die_offset).toNat ≤ 100 ∧
    parse_DIEs 100 exCU ≠ ParseResult.diverge := by
  refine ⟨rfl, by decide, ?_⟩
  exact C6_termination exCU 44 100 rfl
    (fun o die h => (exDecoder_contract o die h).2) (by decide)

/-- A successful run of the loop under the decoder contract appends a block
of records that tiles `[off, b)` contiguously: each appended record's offset
is the cursor position reached by summing its predecessors' sizes, and the
sizes sum to exactly the remaining extent. -/
lemma parseLoop_tiling (b : Int) :
    ∀ (fuel : Nat) (off : Int) (cu cu' : CompileUnit),
      parseLoop b fuel off cu = ParseResult.done cu' →
      (∀ o die, cu.dwarfinfo.decodeDIE o = Except.ok die →
        die.off = o ∧ 1 ≤ die.size ∧ o + die.size ≤ b) →
      off ≤ b →
      ∃ t, cu'.dielist = cu.dielist ++ t ∧
        (∀ (i : Nat) (hi : i < t.length),
          (t.get ⟨i, hi⟩).off = off + ((t.take i).map DIE.size).sum) ∧
        off + (t.map DIE.size).sum = b := by
  intro fuel
  induction fuel with
  | zero =>
    intro off cu cu' hdone hcontract hle
    simp only [parseLoop] at hdone
    by_cases hb2 : off < b
    · rw [if_pos hb2] at hdone
      cases hdone
    · rw [if_neg hb2] at hdone
      cases hdone
      refine ⟨[], by simp, ?_, by simp; omega⟩
      intro i hi
      simp at hi
  | succ fuel ih =>
    intro off cu cu' hdone hcontract hle
    by_cases hb2 : off < b
    · simp only [parseLoop, if_pos hb2] at hdone
      cases hdec : cu.dwarfinfo.decodeDIE off with
      | error e =>
        simp only [hdec] at hdone
        cases hdone
      | ok die =>
        simp only [hdec] at hdone
        obtain ⟨hoffeq, hs1, hs2⟩ := hcontract off die hdec
        obtain ⟨t', ht', hoff', hsum'⟩ :=
          ih (off + die.size) { cu with dielist := cu.dielist ++ [die] } cu'
            hdone (fun o d hd => hcontract o d hd) (by omega)
        refine ⟨die :: t', by simpa using ht', ?_, ?_⟩
        · intro i hi
          cases i with
          | zero => simpa using hoffeq
          | succ i' =>
            have hi' : i' < t'.length := by simpa using hi
            have hrec := hoff' i' hi'
            simp only [List.get_cons_succ, List.take_succ_cons, List.map_cons,
              List.sum_cons]
            omega
        · simp only [List.map_cons, List.sum_cons]
          omega
    · simp only [parseLoop, if_neg hb2] at hdone
      cases hdone
      refine ⟨[], by simp, ?_, by simp; omega⟩
      intro i hi
      simp at hi

/-- C5: when materialization succeeds on a well-formed unit (decoder meeting
its contract, top offset within the unit, list initially unpopulated), the
produced records tile `[top_record_offset, unit_boundary)` contiguously:
record i sits at `top_record_offset + sum of sizes of records 0..i-1`, and
the sizes sum to exactly `unit_boundary - top_record_offset`. -/
theorem C5_tiling (cu cu' : CompileUnit) (b : Int) (fuel : Nat)
    (hb : cu_boundary cu = Except.ok b)
    (hcontract : ∀ o die, cu.dwarfinfo.decodeDIE o = Except.ok die →
      die.off = o ∧ 1 ≤ die.size ∧ o + die.size ≤ b)
    (hinit : cu.dielist = [])
    (htop : cu.cu_die_offset ≤ b)
    (hdone : parse_DIEs fuel cu = ParseResult.done cu') :
    (∀ (i : Nat) (hi : i < cu'.dielist.length),
      (cu'.dielist.get ⟨i, hi⟩).off =
        cu.cu_die_offset + ((cu'.dielist.take i).map DIE.size).sum) ∧
    ((cu'.dielist.map DIE.size).sum = b - cu.cu_die_offset) := by
  unfold parse_DIEs at hdone
  simp only [hb] at hdone
  obtain ⟨t, ht, hoff, hsum⟩ :=
    parseLoop_tiling b fuel cu.cu_die_offset cu cu' hdone hcontract htop
  have ht' : cu'.dielist = t := by
    rw [ht, hinit]
    simp
  rw [ht']
  exact ⟨hoff, by omega⟩

/-- C5 witness: the tiling theorem applied to the concrete scenario, whose
record sizes 5 + 20 + 8 sum to the extent 44 - 11 = 33. -/
theorem C5_tiling_witness :
    cu_boundary exCU = Except.ok 44 ∧
    exCU.dielist = [] ∧
    exCU.cu_die_offset ≤ (44 : Int) ∧
    parse_DIEs 100 exCU = ParseResult.done exCUM ∧
    (exCUM.dielist.map DIE.size).sum = 44 - exCU.cu_die_offset := by
  refine ⟨rfl, rfl, by decide, rfl, ?_⟩
  exact (C5_tiling exCU exCUM 44 100 rfl exDecoder_contract rfl
    (by decide) rfl).2
